import Mathlib

/-!
Verification development for the esp32-task trace/logging subsystem.

The definitions below are a shallow embedding of the C++ source:
serialized trace buffers become lists of byte values (natural numbers
below 256), pointer-sized machine integers become natural numbers
reduced modulo 2^32 where the code truncates, and each encode or
decode routine of CTraceTask / CTraceJsonTask / CPrintLog / CTraceList /
CBaseTask / CLock becomes a Lean function that follows the source
statement by statement.
-/

/-- Little-endian byte serialization of a value into a fixed number of
bytes, as produced by memcpy of a little-endian machine integer
(the ESP32 target is little-endian). -/
def leBytes : Nat → Nat → List Nat
  | 0, _ => []
  | w + 1, v => (v % 256) :: leBytes w (v / 256)

/-- Little-endian numeric value of a byte list (inverse of leBytes for
in-range values). -/
def leNum : List Nat → Nat
  | [] => 0
  | b :: rest => b + 256 * leNum rest

/-- Bytes of a NUL-terminated C string read from a buffer: all bytes up
to (excluding) the first zero byte. -/
def cString : List Nat → List Nat
  | [] => []
  | b :: rest => if b = 0 then [] else b :: cString rest

/-- Buffer layout written by CTraceTask::traceData (inline encoding):
8 bytes timestamp, 4 bytes element count, the raw element bytes, then
the NUL-terminated description string. -/
def traceDataEncode (tm : Nat) (size : Nat) (dataBytes : List Nat) (s : List Nat) : List Nat :=
  leBytes 8 tm ++ leBytes 4 size ++ dataBytes ++ s ++ [0]

/-- Buffer layout written by CTraceTask::traceData2 (indirect encoding):
8 bytes timestamp, 4 bytes element count, 4 bytes of the data pointer
value (little-endian, from memcpy of the 32-bit address), then the
NUL-terminated description string. -/
def traceData2Encode (tm : Nat) (size : Nat) (ptr : Nat) (s : List Nat) : List Nat :=
  leBytes 8 tm ++ leBytes 4 size ++ leBytes 4 (ptr % 4294967296) ++ s ++ [0]

/-- Pointer reconstruction performed by the standard indirect decode
routines (CTraceTask::printData8h_2/printData8_2/printData16h_2/
printData16_2/printData32h_2/printData32_2 and their CTraceJsonTask
siblings except printData16_2): the expression
data[8+4] + data[8+4+1]*256 + data[8+4+2]*256*256 + data[8+4+3]*256*256*256,
i.e. a little-endian read of the four bytes at offsets 12..15. -/
def ptrDecodeStd (buf : List Nat) : Nat :=
  buf.getD 12 0 + buf.getD 13 0 * 256 + buf.getD 14 0 * 65536 + buf.getD 15 0 * 16777216

/-- Pointer reconstruction performed by CTraceJsonTask::printData16_2:
the expression
data[8+2] + data[8+4+1]*256 + data[8+4+2]*256*256 + data[8+4+3]*256*256*256,
whose first addend reads offset 10 (the third byte of the count field)
instead of offset 12 used by every sibling routine. -/
def ptrDecodeJson16_2 (buf : List Nat) : Nat :=
  buf.getD 10 0 + buf.getD 13 0 * 256 + buf.getD 14 0 * 65536 + buf.getD 15 0 * 16777216

/-- Timestamp field decoded by every consumer print routine: the first
eight buffer bytes read as a little-endian 64-bit value. -/
def tsDecode (buf : List Nat) : Nat :=
  leNum (buf.take 8)

/-- Element-count field decoded by every array print routine: the four
bytes at offsets 8..11 read as a little-endian 32-bit value. -/
def sizeDecode (buf : List Nat) : Nat :=
  leNum ((buf.drop 8).take 4)

/-- Description string decoded by the indirect array print routines:
the NUL-terminated string starting at offset 8+4+4. -/
def strDecodeIndirect (buf : List Nat) : List Nat :=
  cString (buf.drop 16)

/-- Claim C1: round-trip of every serialized layout is claimed to
reproduce the data pointer exactly; evaluating the code at an indirect
int16 message (timestamp 0, count 2, data pointer 0x12345678, empty
description) produced by CTraceTask::traceData2 shows that the matching
JSON consumer routine CTraceJsonTask::printData16_2 reconstructs the
pointer as 0x12345600 (its low byte is taken from offset 10, a byte of
the count field), while the sibling decoder of CTraceTask recovers
0x12345678; the timestamp, count and string fields do round-trip. -/
theorem C1_json_int16_indirect_pointer_slip :
    ptrDecodeJson16_2 (traceData2Encode 0 2 0x12345678 []) = 0x12345600 ∧
    ptrDecodeJson16_2 (traceData2Encode 0 2 0x12345678 []) ≠ 0x12345678 ∧
    ptrDecodeStd (traceData2Encode 0 2 0x12345678 []) = 0x12345678 ∧
    tsDecode (traceData2Encode 0 2 0x12345678 []) = 0 ∧
    sizeDecode (traceData2Encode 0 2 0x12345678 []) = 2 ∧
    strDecodeIndirect (traceData2Encode 0 2 0x12345678 []) = [] := by
  refine ⟨by decide, by decide, by decide, by decide, by decide, by decide⟩

/-- Lowercase hexadecimal digit character for a nibble, as produced by
the printf x conversion. -/
def hexDigit (n : Nat) : Char :=
  if n < 10 then Char.ofNat (48 + n) else Char.ofNat (87 + n)

/-- Four-digit zero-padded lowercase hexadecimal rendering of a 16-bit
value (the sprintf format used for each element). -/
def hex4 (v : Nat) : String :=
  String.mk [hexDigit (v / 4096 % 16), hexDigit (v / 256 % 16), hexDigit (v / 16 % 16), hexDigit (v % 16)]

/-- Byte swap of a 16-bit value, translated from the bswap macro of
CTraceJsonTask.cpp: (((x >> 8) and 0xff) or ((x and 0xff) << 8)). -/
def bswap16 (x : Nat) : Nat :=
  ((x >>> 8) &&& 0xff) ||| ((x &&& 0xff) <<< 8)

/-- One 16-bit little-endian element read from a buffer at a byte
offset (pdata[i] on the little-endian target). -/
def readU16 (buf : List Nat) (off : Nat) : Nat :=
  buf.getD off 0 + 256 * buf.getD (off + 1) 0

/-- The decoded 16-bit element array of an inline message: count
elements read from offset 12 onward. -/
def decodeElems16 (buf : List Nat) : Nat → Nat → List Nat
  | _, 0 => []
  | off, n + 1 => readU16 buf off :: decodeElems16 buf (off + 2) n

/-- Value computed in the nanosecond branch of printHeader. The C code
computes (long)((time / (double)n) * 1000); it is modelled as the exact
truncation of time*1000/n, which agrees with the double computation
whenever the quotient is exactly representable (in particular whenever
n = 1). No claim verdict rests on inputs where the two differ. -/
def nsecHeaderVal (time n : Nat) : Nat :=
  time * 1000 / n

/-- Header string written by CTraceTask::printHeader (default build,
CONFIG_TRACE_USEC not set), following the nested conditionals of the
source; the long decimal conversions become decimal Nat rendering. -/
def headerStr (time n : Nat) : String :=
  let res := time / n
  if res ≥ 10000000 then "(+" ++ toString (res / 1000000) ++ "sec)"
  else if res < 10000 then
    if res < 10 then "(+" ++ toString (nsecHeaderVal time n) ++ "nsec)"
    else "(+" ++ toString res ++ "usec)"
  else "(+" ++ toString (res / 1000) ++ "msec)"

/-- Result of a CTraceJsonTask array print routine, split into the
pieces appended to mAnswer: the decoded description (the value field),
the rendered data text, and the full mAnswer string. -/
structure JsonArrayAnswer where
  value : String
  dataText : String
  answer : String
deriving DecidableEq

/-- String built from C-string bytes. -/
def strOfBytes (bs : List Nat) : String :=
  String.mk (bs.map Char.ofNat)

/-- CTraceJsonTask::printData16h, translated from the source: decode
timestamp, count, the inline 16-bit elements at offset 12 and the
description string after them; render each element as a 4-digit
lowercase hex string after a 16-bit byte swap; assemble mAnswer as
the log object with time, value and data fields. -/
def jsonPrintData16h (buf : List Nat) : JsonArrayAnswer :=
  let res := tsDecode buf
  let size := sizeDecode buf
  let elems := decodeElems16 buf 12 size
  let value := strOfBytes (cString (buf.drop (12 + size * 2)))
  let hex := String.join (elems.map (fun e => hex4 (bswap16 e)))
  { value := value
    dataText := hex
    answer := "\x7b\"log\":\x7b\"time\":\"" ++ headerStr res 1 ++ "\",\"value\":\"" ++ value ++ "\",\"data\":\"" ++ hex ++ "\"\x7d\x7d" }

/-- Claim C2 (counterexample): sending the uint16 array [0x00AB, 0xCDEF]
with size 2 through the async JSON task inline path (timestamp 100,
description "d") does not decode to the hex data string "00abcdef":
the byte swap applied to each element before the 4-digit formatting
yields "ab00efcd" instead. -/
theorem C2_hex_output_counterexample :
    (jsonPrintData16h (traceDataEncode 100 2 (([0x00AB, 0xCDEF].map (leBytes 2)).flatten) [100])).dataText ≠ "00abcdef" := by
  decide

/-- Claim C2 (amended): for the uint16 array [0x00AB, 0xCDEF] with
size 2 sent through the async JSON task inline path, each 16-bit
element is byte-swapped before formatting and zero-padded to 4 hex
digits, giving the data string "ab00efcd" (the byte order of the
little-endian memory image), and the output places the description
string before the data string in mAnswer. -/
theorem C2_hex_output_amended :
    jsonPrintData16h (traceDataEncode 100 2 (([0x00AB, 0xCDEF].map (leBytes 2)).flatten) [100]) =
      { value := "d"
        dataText := "ab00efcd"
        answer := "\x7b\"log\":\x7b\"time\":\"(+100usec)\",\"value\":\"d\",\"data\":\"ab00efcd\"\x7d\x7d" } := by
  decide

/-- Successor of the int16_t loop counter (increment with twos-complement
wrap after 32767, the behavior of the target arithmetic). -/
def i16succ (i : Int) : Int :=
  if i + 1 ≤ 32767 then i + 1 else -32768

/-- Value of the int16_t loop counter after the usual arithmetic
conversions in the comparison i < *size (int16_t promotes to int, which
converts to uint32_t, i.e. reduction modulo 2^32). -/
def u32ofI16 (i : Int) : Nat :=
  (i % 4294967296).toNat

/-- Elements emitted by the loop for (int16_t i = 1; i < *size; i++) of
the CTraceTask array print routines (printData8h shown; printData8,
printData16h, printData16, printData32h, printData32 share the loop
shape). Each iteration prints pdata[i], modelled for the 8-bit inline
layout as the byte at offset 12 + i. The fuel argument bounds the
unrolling; 65536 steps cover a full counter cycle, so the given fuel is
never exhausted on an input where the loop terminates. -/
def printLoopElems (buf : List Nat) (size : Nat) : Nat → Int → List Nat
  | 0, _ => []
  | fuel + 1, i =>
    if u32ofI16 i < size then buf.getD (12 + u32ofI16 i) 0 :: printLoopElems buf size fuel (i16succ i)
    else []

/-- Element sequence emitted by CTraceTask::printData8h on a message
buffer: pdata[0] is printed unconditionally before the loop, then the
int16-counter loop runs from i = 1. -/
def printData8hElems (buf : List Nat) : List Nat :=
  buf.getD 12 0 :: printLoopElems buf (sizeDecode buf) 65536 1

theorem u32ofI16_ofNat (n : Nat) (h : n ≤ 32767) : u32ofI16 (n : Int) = n := by
  unfold u32ofI16
  omega

theorem printLoopElems_neg_stop (buf : List Nat) (size : Nat) (hs : size ≤ 4294934528) :
    ∀ fuel, printLoopElems buf size fuel (-32768) = [] := by
  intro fuel
  cases fuel with
  | zero => rfl
  | succ f =>
    have hu : u32ofI16 (-32768) = 4294934528 := by decide
    unfold printLoopElems
    rw [hu]
    simp only [if_neg (by omega : ¬ (4294934528 < size))]

theorem printLoopElems_length (buf : List Nat) (size : Nat) (hs : size ≤ 4294934528) :
    ∀ fuel (n : Nat), n ≤ 32767 → 32768 - n ≤ fuel →
      (printLoopElems buf size fuel (n : Int)).length = min size 32768 - n := by
  intro fuel
  induction fuel with
  | zero =>
    intro n hn hf
    omega
  | succ f ih =>
    intro n hn hf
    unfold printLoopElems
    rw [u32ofI16_ofNat n hn]
    by_cases hlt : n < size
    · rw [if_pos hlt]
      by_cases htop : n = 32767
      · subst htop
        have hstep : i16succ ((32767 : Nat) : Int) = -32768 := by decide
        rw [hstep, printLoopElems_neg_stop buf size hs f]
        simp only [List.length_cons, List.length_nil]
        omega
      · have hstep : i16succ ((n : Nat) : Int) = ((n + 1 : Nat) : Int) := by
          unfold i16succ
          rw [if_pos (by omega : (n : Int) + 1 ≤ 32767)]
          push_cast
          ring
        rw [hstep]
        have := ih (n + 1) (by omega) (by omega)
        simp only [List.length_cons, this]
        omega
    · rw [if_neg hlt]
      simp only [List.length_nil]
      omega

/-- Claim C3 (counterexample): for an inline 8-bit array message with
element count N = 0 (timestamp 7, empty data, description "d") the
decode routine does not emit zero formatted elements: pdata[0] is
printed unconditionally, so one element is emitted, and the byte it
formats is the first byte of the description string, read past the
(empty) array. -/
theorem C3_zero_count_counterexample :
    printData8hElems (traceDataEncode 7 0 [] [100]) = [100] ∧
    (printData8hElems (traceDataEncode 7 0 [] [100])).length ≠ 0 := by
  refine ⟨by decide, by decide⟩

/-- Claim C3 (amended): for every array trace message whose decoded
element count N is at most 4294934528, the CTraceTask decode routine
emits exactly N formatted elements when 1 ≤ N ≤ 32768; when N = 0 it
still emits one element (pdata[0], read from beyond the array); and
when N > 32768 it emits only 32768 elements, because the loop counter
is a 16-bit signed integer that wraps negative after 32767 and the
wrapped value compares above any such N after conversion to uint32. -/
theorem C3_array_emit_count (buf : List Nat) (h : sizeDecode buf ≤ 4294934528) :
    (printData8hElems buf).length =
      if sizeDecode buf = 0 then 1 else min (sizeDecode buf) 32768 := by
  unfold printData8hElems
  have := printLoopElems_length buf (sizeDecode buf) h 65536 1 (by omega) (by omega)
  rw [show ((1 : Nat) : Int) = (1 : Int) by norm_num] at this
  simp only [List.length_cons, this]
  by_cases h0 : sizeDecode buf = 0
  · rw [if_pos h0, h0]
    omega
  · rw [if_neg h0]
    omega

/-- Claim C3 (witness): the amended count theorem applied to a concrete
inline message with three data bytes. -/
theorem C3_array_emit_count_witness :
    sizeDecode (traceDataEncode 7 3 [5, 6, 7] [100]) ≤ 4294934528 ∧
    (printData8hElems (traceDataEncode 7 3 [5, 6, 7] [100])).length =
      (if sizeDecode (traceDataEncode 7 3 [5, 6, 7] [100]) = 0 then 1
       else min (sizeDecode (traceDataEncode 7 3 [5, 6, 7] [100])) 32768) :=
  ⟨by decide, C3_array_emit_count (traceDataEncode 7 3 [5, 6, 7] [100]) (by decide)⟩

/-- Observable actions of the dispatch hub CTraceList during one scalar
trace call: taking and releasing the registry mutex, invoking trace on
a registered sink, the pre-restart delay, and the restart itself. -/
inductive HubAction where
  | lock
  | unlock
  | dispatch (sink : Nat) (errCode : Int)
  | delayMs (ms : Nat)
  | restart
deriving DecidableEq

/-- CTraceList::add: push_back of the sink reference under the lock,
so registration appends to the end of the ordered list. -/
def CTraceList_add (registry : List Nat) (sink : Nat) : List Nat :=
  registry ++ [sink]

/-- Registry contents after registering the given sinks one by one
through CTraceList::add, starting from the empty registry. -/
def addAll (sinks : List Nat) : List Nat :=
  sinks.foldl CTraceList_add []

/-- CTraceList::trace (scalar overload), translated from the source:
lock, one x->trace call per registered sink in list order, unlock;
then, only if reboot is set, a 1000 ms delay followed by esp_restart. -/
def CTraceList_trace (registry : List Nat) (errCode : Int) (reboot : Bool) : List HubAction :=
  HubAction.lock :: registry.map (fun s => HubAction.dispatch s errCode) ++ [HubAction.unlock]
    ++ (if reboot then [HubAction.delayMs 1000, HubAction.restart] else [])

/-- Sink receiving a dispatch action, if the action is a dispatch. -/
def dispatchedSink : HubAction → Option Nat
  | HubAction.dispatch s _ => some s
  | _ => none

theorem addAll_foldl (sinks acc : List Nat) :
    sinks.foldl CTraceList_add acc = acc ++ sinks := by
  induction sinks generalizing acc with
  | nil => simp
  | cons a t ih => simp [CTraceList_add, ih]

theorem addAll_eq (sinks : List Nat) : addAll sinks = sinks := by
  unfold addAll
  rw [addAll_foldl]
  simp

theorem filterMap_dispatch (l : List Nat) (e : Int) :
    (l.map (fun s => HubAction.dispatch s e)).filterMap dispatchedSink = l := by
  induction l with
  | nil => rfl
  | cons a t ih => simp [dispatchedSink, ih]

/-- Claim C4: a scalar trace call on the hub dispatches to every sink
that was registered (in push_back order) exactly once and in that
order, whatever the error code; with reboot set, the action sequence
ends with the delay and restart placed strictly after the unlock and
after every dispatch, and without reboot no restart occurs. -/
theorem C4_hub_dispatch_order (sinks : List Nat) (errCode : Int) :
    (CTraceList_trace (addAll sinks) errCode true).filterMap dispatchedSink = sinks ∧
    (CTraceList_trace (addAll sinks) errCode false).filterMap dispatchedSink = sinks ∧
    CTraceList_trace (addAll sinks) errCode true =
      (HubAction.lock :: sinks.map (fun s => HubAction.dispatch s errCode) ++ [HubAction.unlock])
        ++ [HubAction.delayMs 1000, HubAction.restart] ∧
    HubAction.restart ∉
      HubAction.lock :: sinks.map (fun s => HubAction.dispatch s errCode) ++ [HubAction.unlock] ∧
    HubAction.restart ∉ CTraceList_trace (addAll sinks) errCode false := by
  rw [addAll_eq]
  refine ⟨?_, ?_, ?_, ?_, ?_⟩
  · simp [CTraceList_trace, List.filterMap_append, filterMap_dispatch, dispatchedSink,
      -List.filterMap_map]
  · simp [CTraceList_trace, List.filterMap_append, filterMap_dispatch, dispatchedSink,
      -List.filterMap_map]
  · simp [CTraceList_trace]
  · simp
  · simp [CTraceList_trace]

/-- Time units selectable by printHeader. -/
inductive TimeUnit where
  | nsec
  | usec
  | msec
  | sec
deriving DecidableEq

/-- Unit selected by CPrintLog::printHeader / CTraceTask::printHeader,
translated from the nested conditionals of the source over the scaled
value res = time / n; the usecOnly flag is the CONFIG_TRACE_USEC build
option that short-circuits the whole cascade. -/
def printHeaderUnit (usecOnly : Bool) (time n : Nat) : TimeUnit :=
  let res := time / n
  if usecOnly then TimeUnit.usec
  else if res ≥ 10000000 then TimeUnit.sec
  else if res < 10000 then
    if res < 10 then TimeUnit.nsec else TimeUnit.usec
  else TimeUnit.msec

/-- Unit selection as the spec words it: nanoseconds when res < 10,
microseconds when 10 <= res < 10000, milliseconds when
10000 <= res < 10000000, seconds otherwise, unless the build-time
microsecond-only option is set. -/
def specHeaderUnit (usecOnly : Bool) (time n : Nat) : TimeUnit :=
  if usecOnly then TimeUnit.usec
  else
    let res := time / n
    if res < 10 then TimeUnit.nsec
    else if res < 10000 then TimeUnit.usec
    else if res < 10000000 then TimeUnit.msec
    else TimeUnit.sec

/-- Claim C6: the unit choice of the header formatter agrees with the
threshold classification of the spec for every elapsed time and
divisor, and with the microsecond-only build option it is always
microseconds. The nanosecond branch additionally renders sub-unit
precision through double arithmetic (nsecHeaderVal models its exact
value); the unit choice itself is what is compared here. -/
theorem C6_header_unit_thresholds (usecOnly : Bool) (time n : Nat) :
    printHeaderUnit usecOnly time n = specHeaderUnit usecOnly time n := by
  unfold printHeaderUnit specHeaderUnit
  cases usecOnly
  · simp only [Bool.false_eq_true, if_false]
    split_ifs <;> first | rfl | omega
  · simp

/-- Result of one CPrintLog::trace scalar call: the lines actually
printed (projected to the pair of the elapsed time passed to
printHeader and the error code), the updated per-sink time reference
mTime, and whether the call ends in the reboot delay-and-restart.
getTimer computes res = now - mTime and refreshes mTime to now
unconditionally, before the sentinel test. -/
structure ConsoleTraceResult where
  printed : List (Int × Int)
  mTime : Int
  restart : Bool
deriving DecidableEq

/-- CPrintLog::trace (scalar), translated from the source: read and
refresh the timer first; then, only when the error code differs from
the sentinel 0x7fffffff, print the header and the code line and, with
the reboot flag, delay and restart. -/
def CPrintLog_trace (mTime now errCode : Int) (reboot : Bool) : ConsoleTraceResult :=
  let res := now - mTime
  if errCode ≠ 2147483647 then
    { printed := [(res, errCode)], mTime := now, restart := reboot }
  else
    { printed := [], mTime := now, restart := false }

/-- Scalar buffer packed by CTraceTask::trace: 8 bytes timestamp,
4 bytes error code (twos complement for negative codes), 1 byte
level, then the NUL-terminated message string. -/
def scalarTraceEncode (tm : Nat) (errCode : Int) (level : Nat) (s : List Nat) : List Nat :=
  leBytes 8 tm ++ leBytes 4 ((errCode % 4294967296).toNat) ++ [level] ++ s ++ [0]

/-- CTraceTask::trace (scalar producer), translated from the source:
when the error code equals the sentinel 0x7fffffff nothing is
allocated and nothing is enqueued (result none); otherwise the message
ID (MSG_TRACE_STRING_REBOOT = 5026 with the reboot flag, else
MSG_TRACE_STRING = 5025) and the packed buffer are enqueued. -/
def CTraceTask_trace (tm : Nat) (errCode : Int) (level : Nat) (reboot : Bool) (s : List Nat) :
    Option (Nat × List Nat) :=
  if errCode ≠ 2147483647 then
    some ((if reboot then 5026 else 5025), scalarTraceEncode tm errCode level s)
  else none

/-- Claim C5: a scalar trace with the sentinel error code 0x7fffffff
produces no output anywhere: the console sink prints nothing (and never
restarts), and the async trace task allocates no buffer and enqueues no
mailbox message. -/
theorem C5_sentinel_suppresses_output (mTime now : Int) (reboot : Bool) (tm level : Nat)
    (s : List Nat) :
    (CPrintLog_trace mTime now 2147483647 reboot).printed = [] ∧
    (CPrintLog_trace mTime now 2147483647 reboot).restart = false ∧
    CTraceTask_trace tm 2147483647 level reboot s = none := by
  refine ⟨?_, ?_, ?_⟩ <;> simp [CPrintLog_trace, CTraceTask_trace]

/-- Claim C10: a console scalar trace with the sentinel code is not a
complete no-op: mTime is refreshed to the current time before the
sentinel test, so a subsequent non-sentinel trace at time now2 reports
the elapsed time now2 - now, measured from the suppressed call rather
than from the previous mTime. -/
theorem C10_sentinel_resets_time_reference (mTime now now2 : Int) (reboot : Bool) :
    (CPrintLog_trace mTime now 2147483647 reboot).mTime = now ∧
    (CPrintLog_trace (CPrintLog_trace mTime now 2147483647 reboot).mTime now2 5 false).printed
      = [(now2 - now, 5)] := by
  refine ⟨?_, ?_⟩ <;> simp [CPrintLog_trace]

/-- State of a task mailbox as seen by CBaseTask::sendMessage: the
queued message IDs, the queue capacity, and the notification
bits mNotify. -/
structure MailboxState where
  queue : List Nat
  capacity : Nat
  notifyBits : Nat
deriving DecidableEq

/-- Outcome of one CBaseTask::sendMessage call: the returned flag, the
queue afterwards, whether the payload buffer was freed by the sender,
and whether the failure warning was logged. -/
structure SendResult where
  ok : Bool
  queue : List Nat
  freedPayload : Bool
  warned : Bool
deriving DecidableEq

/-- Result of xTaskNotify with the eSetBits action, an external FreeRTOS
primitive: with eSetBits the notification always succeeds, so the call
always returns pdPASS. -/
def xTaskNotifySetBits : Bool :=
  true

/-- CBaseTask::sendMessage, translated from the source. xQueueSend
succeeds exactly when a slot is available within the wait budget; the
queue having stayed full for the whole budget is modelled as the queue
holding capacity messages at the call. On success the message is
appended (FIFO back insertion) and, when mNotify is nonzero, the
result of xTaskNotify(eSetBits) is returned; on failure the payload is
freed when free_mem is set, the warning is traced, and false is
returned. -/
def sendMessage (st : MailboxState) (msgID : Nat) (free_mem : Bool) : SendResult :=
  if st.queue.length < st.capacity then
    { ok := if st.notifyBits ≠ 0 then xTaskNotifySetBits else true
      queue := st.queue ++ [msgID]
      freedPayload := false
      warned := false }
  else
    { ok := false
      queue := st.queue
      freedPayload := free_mem
      warned := true }

/-- Claim C7: sendMessage on a mailbox that is full for the whole wait
budget returns false, frees the caller-allocated payload exactly when
free_mem is set, and logs a warning; when a slot is available the call
returns true and the message is enqueued at the back, with the payload
left alive for the consumer. -/
theorem C7_sendMessage_full_and_success (st : MailboxState) (msgID : Nat) (free_mem : Bool) :
    ((sendMessage st msgID free_mem).ok = false ↔ st.capacity ≤ st.queue.length) ∧
    ((sendMessage st msgID free_mem).ok = false →
      (sendMessage st msgID free_mem).freedPayload = free_mem ∧
      (sendMessage st msgID free_mem).warned = true ∧
      (sendMessage st msgID free_mem).queue = st.queue) ∧
    ((sendMessage st msgID free_mem).ok = true →
      (sendMessage st msgID free_mem).queue = st.queue ++ [msgID] ∧
      (sendMessage st msgID free_mem).freedPayload = false) := by
  unfold sendMessage
  by_cases h : st.queue.length < st.capacity
  · rw [if_pos h]
    refine ⟨?_, ?_, ?_⟩
    · simp [xTaskNotifySetBits]
      omega
    · intro hok
      simp [xTaskNotifySetBits] at hok
    · intro hok
      exact ⟨rfl, rfl⟩
  · rw [if_neg h]
    refine ⟨?_, ?_, ?_⟩
    · simp
      omega
    · intro hok
      exact ⟨rfl, rfl, rfl⟩
    · intro hok
      simp at hok

/-- Claim C7 (witness): applying the theorem to a mailbox of capacity 2
holding two messages, so the send fails, frees and warns. -/
theorem C7_sendMessage_witness :
    (sendMessage { queue := [9, 9], capacity := 2, notifyBits := 0 } 5 true).ok = false ∧
    (sendMessage { queue := [9, 9], capacity := 2, notifyBits := 0 } 5 true).freedPayload = true ∧
    (sendMessage { queue := [9, 9], capacity := 2, notifyBits := 0 } 5 true).warned = true ∧
    (sendMessage { queue := [9, 9], capacity := 2, notifyBits := 0 } 5 true).queue = [9, 9] :=
  have h := C7_sendMessage_full_and_success { queue := [9, 9], capacity := 2, notifyBits := 0 } 5 true
  have hok : (sendMessage { queue := [9, 9], capacity := 2, notifyBits := 0 } 5 true).ok = false :=
    h.1.mpr (by decide)
  ⟨hok, (h.2.1 hok).1, (h.2.1 hok).2.1, (h.2.1 hok).2.2⟩

/-- Semaphore operations performed by CLock. -/
inductive LockAction where
  | acquireForever
  | release
deriving DecidableEq

/-- CLock::lock, translated from the source: when mMutex is null the
call is a no-op; otherwise xSemaphoreTake(mMutex, portMAX_DELAY) is
performed. The handle itself is never modified. -/
def CLock_lock : Option Nat → Option Nat × List LockAction
  | none => (none, [])
  | some h => (some h, [LockAction.acquireForever])

/-- CLock::unlock, translated from the source: when mMutex is null the
call is a no-op; otherwise xSemaphoreGive(mMutex) is performed. -/
def CLock_unlock : Option Nat → Option Nat × List LockAction
  | none => (none, [])
  | some h => (some h, [LockAction.release])

/-- Claim C8: on an uninitialized (null) handle both lock and unlock
are no-ops that perform no semaphore operation and leave the handle
unchanged; on an initialized handle lock performs exactly the
indefinite-wait acquire and unlock exactly the release, and neither
changes the handle. -/
theorem C8_optional_locking (st : Option Nat) :
    (CLock_lock st).1 = st ∧
    (CLock_unlock st).1 = st ∧
    (CLock_lock none).2 = [] ∧
    (CLock_unlock none).2 = [] ∧
    (∀ h, (CLock_lock (some h)).2 = [LockAction.acquireForever]) ∧
    (∀ h, (CLock_unlock (some h)).2 = [LockAction.release]) := by
  refine ⟨?_, ?_, rfl, rfl, fun h => rfl, fun h => rfl⟩ <;> cases st <;> rfl

/-- Element kinds of the six array trace overloads. -/
inductive ElemKind where
  | u8
  | i8
  | u16
  | i16
  | u32
  | i32
deriving DecidableEq

/-- Width in bytes of one element of each kind. -/
def elemBytes : ElemKind → Nat
  | ElemKind.u8 => 1
  | ElemKind.i8 => 1
  | ElemKind.u16 => 2
  | ElemKind.i16 => 2
  | ElemKind.u32 => 4
  | ElemKind.i32 => 4

/-- The two serialized array encodings. -/
inductive ArrayEncoding where
  | inlineCopy
  | indirect
deriving DecidableEq

/-- Encoding chosen by the CTraceTask::trace array overloads in
CTraceTask.h: traceData2 (indirect, pointer-carrying) when the element
count exceeds 4096 / 2048 / 1024 for 8- / 16- / 32-bit elements,
otherwise traceData (inline copy). -/
def traceArrayEncoding (k : ElemKind) (size : Nat) : ArrayEncoding :=
  match k with
  | ElemKind.u8 => if size > 4096 then ArrayEncoding.indirect else ArrayEncoding.inlineCopy
  | ElemKind.i8 => if size > 4096 then ArrayEncoding.indirect else ArrayEncoding.inlineCopy
  | ElemKind.u16 => if size > 2048 then ArrayEncoding.indirect else ArrayEncoding.inlineCopy
  | ElemKind.i16 => if size > 2048 then ArrayEncoding.indirect else ArrayEncoding.inlineCopy
  | ElemKind.u32 => if size > 1024 then ArrayEncoding.indirect else ArrayEncoding.inlineCopy
  | ElemKind.i32 => if size > 1024 then ArrayEncoding.indirect else ArrayEncoding.inlineCopy

/-- Claim C9: for every element kind and count, the async task picks
the indirect encoding exactly when the count exceeds the fixed
width-dependent threshold (4096 for 8-bit, 2048 for 16-bit, 1024 for
32-bit), which is exactly when the raw payload exceeds 4096 bytes;
otherwise the inline copying encoding is used. -/
theorem C9_encoding_threshold (k : ElemKind) (size : Nat) :
    (traceArrayEncoding k size = ArrayEncoding.indirect ↔ size * elemBytes k > 4096) ∧
    (traceArrayEncoding k size = ArrayEncoding.inlineCopy ↔ size * elemBytes k ≤ 4096) := by
  cases k <;>
    simp only [traceArrayEncoding, elemBytes] <;>
    constructor <;>
    split_ifs <;>
    simp <;>
    omega

/-- Claim C4 (witness): the dispatch-order theorem applied to three
concretely registered sinks. -/
theorem C4_hub_dispatch_order_witness :
    (CTraceList_trace (addAll [3, 1, 2]) 5 true).filterMap dispatchedSink = [3, 1, 2] ∧
    CTraceList_trace (addAll [3, 1, 2]) 5 true =
      (HubAction.lock :: [3, 1, 2].map (fun s => HubAction.dispatch s 5) ++ [HubAction.unlock])
        ++ [HubAction.delayMs 1000, HubAction.restart] ∧
    HubAction.restart ∉ CTraceList_trace (addAll [3, 1, 2]) 5 false :=
  ⟨(C4_hub_dispatch_order [3, 1, 2] 5).1,
   (C4_hub_dispatch_order [3, 1, 2] 5).2.2.1,
   (C4_hub_dispatch_order [3, 1, 2] 5).2.2.2.2⟩
